import Mathlib

/-!
Verification development for the submeta-dl script (src/submeta-dl.py).

The script is a linear course downloader: fetch a page, extract an embedded
JSON block, parse the course tree, log in, then loop over videos invoking an
external download tool.  All network, HTML and filesystem effects are modelled
by oracle parameters and an explicit event trace; the pure data manipulation
(filename sanitization, course-tree parsing, directory and filename layout,
control flow of main) is embedded directly from the source.
-/

namespace SubmetaDL

/-- Models the Python builtin str.isalnum on a single character, as used by
sanitize_filename (line 81 of the source).  Python classifies by the Unicode
character database; this model is faithful for every code point below 0x100
(ASCII digits and letters, and the Latin-1 letters, ordinal indicators, micro
sign, superscript digits and vulgar fractions).  Code points at or above
0x100 are classified here as not alphanumeric; every concrete character
appearing in the theorems below lies in the faithful range. -/
def pyIsAlnum (c : Char) : Bool :=
  let n := c.toNat
  (0x30 ≤ n && n ≤ 0x39) || (0x41 ≤ n && n ≤ 0x5A) || (0x61 ≤ n && n ≤ 0x7A) ||
  n == 0xAA || n == 0xB2 || n == 0xB3 || n == 0xB5 || n == 0xB9 || n == 0xBA ||
  n == 0xBC || n == 0xBD || n == 0xBE ||
  (0xC0 ≤ n && n ≤ 0xD6) || (0xD8 ≤ n && n ≤ 0xF6) || (0xF8 ≤ n && n ≤ 0xFF)

/-- Per-character step of sanitize_filename, from line 81 of the source:
c if c.isalnum() or c in a tuple of space, dot, underscore, else an
underscore. -/
def sanitizeChar (c : Char) : Char :=
  if pyIsAlnum c || c == ' ' || c == '.' || c == '_' then c else '_'

/-- Embedding of sanitize_filename (lines 79 to 81 of the source): join of the
per-character map over the characters of the input string. -/
def sanitize_filename (s : String) : String :=
  String.mk (s.data.map sanitizeChar)

/-- Written from the WORDS OF THE CLAIM, not from the source, for comparison:
membership in the character class of letters A-Z and a-z, digits, space, dot
and underscore that the spec uses to describe sanitization. -/
def claimAllowedChar (c : Char) : Bool :=
  (('A' ≤ c && c ≤ 'Z') || ('a' ≤ c && c ≤ 'z') || ('0' ≤ c && c ≤ '9')
    || c == ' ' || c == '.' || c == '_')

/-- JSON values as produced by json.loads: objects are Python dicts, modelled
as association lists in insertion order with unique keys (json.loads keeps the
last occurrence of a duplicated key, so a parsed object never holds two
bindings of the same key). -/
inductive JVal where
  | jnull : JVal
  | jbool : Bool → JVal
  | jnum : Int → JVal
  | jstr : String → JVal
  | jarr : List JVal → JVal
  | jobj : List (String × JVal) → JVal

/-- Python truthiness of a JSON value: None, False, zero, the empty string,
the empty list and the empty dict are falsy, everything else truthy.  Used by
the checks of the form if not x in main and get_token. -/
def pyTruthy : JVal → Bool
  | .jnull => false
  | .jbool b => b
  | .jnum n => n != 0
  | .jstr s => s ≠ ""
  | .jarr xs => !xs.isEmpty
  | .jobj fs => !fs.isEmpty

/-- Python subscript d of a string key: a KeyError on a dict without the key
and a TypeError on every non-dict value both propagate as exceptions, which
every caller in the script catches, so both are modelled as none. -/
def jget (j : JVal) (k : String) : Option JVal :=
  match j with
  | .jobj fs => fs.lookup k
  | _ => none

/-- Python iteration over a value, as in the two for loops of get_course:
a list yields its elements, a dict yields its keys, a string yields its
one-character substrings, anything else raises TypeError (modelled none). -/
def pyIter : JVal → Option (List JVal)
  | .jarr xs => some xs
  | .jobj fs => some (fs.map (fun p => JVal.jstr p.1))
  | .jstr s => some (s.data.map (fun c => JVal.jstr (String.mk [c])))
  | _ => none

/-- Assignment d of key k to value v on a Python dict: an existing key keeps
its position and gets the new value, a new key is appended at the end. -/
def dinsert (k : String) (v : α) (d : List (String × α)) : List (String × α) :=
  if d.any (fun p => p.1 == k) then
    d.map (fun p => if p.1 == k then (k, v) else p)
  else d ++ [(k, v)]

/-- One Chapter of the parsed course: ordered mapping from sanitized video
title to the identifier stored for it (the JSON value of the id field). -/
abbrev Chapter := List (String × JVal)

/-- The parsed Course: ordered mapping from sanitized chapter title to
Chapter, as built by get_course. -/
abbrev Course := List (String × Chapter)

/-- Body of the inner for loop of get_course (lines 67 to 70 of the source):
index the item by typename (none models the uncaught KeyError or TypeError on
a missing key or a non-dict item, both caught at the bottom of get_course),
skip items whose typename differs from the string Video, and for Video items
read the title (a string, since sanitize_filename iterates it) and the id and
assign into the chapter dict. -/
def procVideo (acc : Chapter) (v : JVal) : Option Chapter :=
  match v with
  | .jobj fs =>
    match fs.lookup "__typename" with
    | some tn =>
      match tn with
      | .jstr tns =>
        if tns = "Video" then
          match fs.lookup "title", fs.lookup "id" with
          | some (.jstr t), some i => some (dinsert (sanitize_filename t) i acc)
          | _, _ => none
        else some acc
      | _ => some acc
    | none => none
  | _ => none

/-- The inner for loop of get_course over the content items of one chapter. -/
def procVideos (acc : Chapter) : List JVal → Option Chapter
  | [] => some acc
  | v :: vs =>
    match procVideo acc v with
    | none => none
    | some acc2 => procVideos acc2 vs

/-- Body of the outer for loop of get_course (lines 64 to 70 of the source):
read and sanitize the chapter title, reset the course entry for that title to
an empty dict, then run the inner loop over the contents of the chapter. -/
def procChapter (acc : Course) (chv : JVal) : Option Course :=
  match chv with
  | .jobj fs =>
    match fs.lookup "title", fs.lookup "contents" with
    | some (.jstr t), some contents =>
      match pyIter contents with
      | some vids =>
        match procVideos [] vids with
        | some inner => some (dinsert (sanitize_filename t) inner acc)
        | none => none
      | none => none
    | _, _ => none
  | _ => none

/-- The outer for loop of get_course over the chapters. -/
def procChapters (acc : Course) : List JVal → Option Course
  | [] => some acc
  | c :: cs =>
    match procChapter acc c with
    | none => none
    | some acc2 => procChapters acc2 cs

/-- Embedding of get_course (lines 60 to 76 of the source): navigate the
fixed path props, pageProps, course, chapters, then fold the two loops;
any KeyError or TypeError along the way is caught and turned into None. -/
def get_course (j : JVal) : Option Course :=
  match jget j "props" >>= (jget · "pageProps") >>= (jget · "course")
      >>= (jget · "chapters") with
  | none => none
  | some chs =>
    match pyIter chs with
    | none => none
    | some l => procChapters [] l

/-- One element of the fetched HTML page, as seen by the BeautifulSoup calls
in get_json: its type attribute, when it has one, and the string contents of
its children. -/
structure PageElem where
  typeAttr : Option String
  children : List String

/-- Embedding of soup.find with a type attribute filter (line 48 of the
source): the first element of the page whose type attribute equals the given
string. -/
def bs4FindJson (pg : List PageElem) : Option PageElem :=
  pg.find? (fun el => el.typeAttr == some "application/json")

/-- Embedding of get_json (lines 40 to 57 of the source).  The network fetch
and the HTML parse are an oracle: page is none when the GET raises (connection
error, timeout, or raise_for_status on a non-2xx status), otherwise the parsed
element list; parse is the json.loads oracle, none on malformed JSON.  The for
loop over data.children returns on the first child; a found element with no
children falls through to the error log; every failure path returns None. -/
def get_json (page : Option (List PageElem)) (parse : String → Option JVal) :
    Option JVal :=
  match page with
  | none => none
  | some pg =>
    match bs4FindJson pg with
    | none => none
    | some el =>
      match el.children.head? with
      | none => none
      | some s => parse s

/-- Observable events of a run: console prints, the two interactive prompts,
directory creation, log lines, and an invocation of the external yt-dlp
download tool with a manifest URL and an output template. -/
inductive Ev where
  | print : String → Ev
  | promptUsername : Ev
  | promptPassword : Ev
  | mkdir : String → Ev
  | logInfo : String → Ev
  | logError : String → Ev
  | ytdl : String → String → Ev
  deriving DecidableEq

/-- Usage line printed by main on a wrong argument count (line 226). -/
def usageMsg : String := "usage: submeta-dl.py <URL> <download path(optional)>"

/-- Message printed by main when get_json yields nothing (line 233). -/
def jsonFailMsg : String :=
  "Failed to retrieve JSON data. Check the URL or logs for more information."

/-- Message printed by main when the course check fails (line 238). -/
def parseFailMsg : String := "Failed to parse course data. Check logs for more information."

/-- Message printed by main when get_token yields nothing (line 245). -/
def loginFailMsg : String := "Failed to login. Check credentials or logs for more information."

/-- Message printed by main after the downloader returns (line 249). -/
def completeMsg : String := "Download complete!"

/-- Embedding of get_token (lines 84 to 137 of the source), with the POST
absorbed into its parsed-response oracle: resp is none when the request raises
(network error or HTTP error status), otherwise the decoded JSON body.  The
code reads data of key data, then of key login, then .get of key token; a
missing or falsy token is a login failure; every exception is caught and every
failure path returns None.  The first component is the trace of log and print
events the call emits. -/
def get_token (resp : Option JVal) : List Ev × Option JVal :=
  match resp with
  | none => ([Ev.logError "Network error during login"], none)
  | some d =>
    match jget d "data" >>= (jget · "login") with
    | some login =>
      match login with
      | .jobj fs =>
        match fs.lookup "token" with
        | some v =>
          if pyTruthy v then
            ([Ev.logInfo "Login successful!",
              Ev.print "Login successful! Token obtained"], some v)
          else ([Ev.logError "Login failed"], none)
        | none => ([Ev.logError "Login failed"], none)
      | _ => ([Ev.logError "Unexpected error during login"], none)
    | none => ([Ev.logError "Unexpected error during login"], none)

/-- Fixed streaming host put before the stream token in the manifest URL
(line 141 of the source). -/
def urlPre : String := "https://customer-3j2pofw9vdbl9sfy.cloudflarestream.com/"

/-- Fixed manifest path put after the stream token (line 142 of the source). -/
def urlSuf : String := "/manifest/video.mpd"

/-- Model of os.path.join on a posix system for a relative second component:
one separator is inserted. -/
def joinPath (a b : String) : String := a ++ "/" ++ b

/-- Model of list.index on a list of strings: position of the first
occurrence.  list.index raises ValueError on a missing element; the two call
sites in downloader only ever look up a key of the dict currently being
iterated, so that branch is unreachable and the value returned for it here is
immaterial. -/
def pyIndex (l : List String) (x : String) : Nat :=
  match l with
  | [] => 0
  | y :: ys => if y = x then 0 else pyIndex ys x + 1

/-- Per-video body of the download loop (lines 160 to 221 of the source).
vidKeys is list(course[chapter]); the 1-based video index is the position of
the first occurrence of the key in it.  The authenticated resolution POST and
its response parsing are the resolve oracle: none models any exception in the
try block (network error, HTTP error status, or a missing nested field), which
the two except arms catch and log; some tok is a resolved stream token, after
which the yt-dlp invocation is recorded with the manifest URL and the output
template, followed by the success log line. -/
def videoEvents (chapter_path : String) (vidKeys : List String)
    (resolve : JVal → Option String) (p : String × JVal) : List Ev :=
  let video_index := pyIndex vidKeys p.1 + 1
  let video_title := sanitize_filename p.1
  let filename := toString video_index ++ ". " ++ video_title
  let filepath := joinPath chapter_path (filename ++ ".%(ext)s")
  match resolve p.2 with
  | some tok =>
    [Ev.ytdl (urlPre ++ tok ++ urlSuf) filepath,
     Ev.logInfo ("Successfully downloaded: " ++ filename)]
  | none => [Ev.logError ("Failed to download " ++ filename)]

/-- Per-chapter body of the download loop (lines 154 to 221 of the source):
the 1-based chapter index is the position of the first occurrence of the key
in list(course); the chapter directory is created, then the videos of the
chapter are processed in order. -/
def chapterEvents (download_path : String) (courseKeys : List String)
    (resolve : JVal → Option String) (p : String × Chapter) : List Ev :=
  let chapter_index := pyIndex courseKeys p.1 + 1
  let chapter_title := sanitize_filename p.1
  let chapter_path := joinPath download_path (toString chapter_index ++ ". " ++ chapter_title)
  Ev.mkdir chapter_path :: p.2.flatMap (videoEvents chapter_path (p.2.map Prod.fst) resolve)

/-- Embedding of downloader (lines 140 to 221 of the source): the destination
root is the third argument when there are exactly three, else the default
submeta-downloads; the root directory is created, then every chapter is
processed in course order.  The bearer token only feeds the resolution POST,
which the resolve oracle absorbs. -/
def downloader (course : Course) (args : List String) (_tokenV : JVal)
    (resolve : JVal → Option String) : List Ev :=
  let download_path := if args.length = 3 then args.getD 2 "" else "submeta-downloads"
  Ev.mkdir download_path ::
    course.flatMap (chapterEvents download_path (course.map Prod.fst) resolve)

/-- Oracle for everything the script obtains from the outside world: the
fetched page (none when the GET raises), the json.loads results, the decoded
login response (none when the login POST raises), and the per-video stream
token resolution. -/
structure Oracle where
  page : Option (List PageElem)
  parse : String → Option JVal
  loginResp : Option JVal
  resolve : JVal → Option String

/-- Embedding of main (lines 224 to 249 of the source): argument count check,
then get_json with the falsy check if not json_data, then get_course with the
falsy check if not course (an empty dict is falsy in Python), then the two
interactive prompts and get_token with the check if not token, then the
download loop and the final print.  The second component is the return value
of main: some (-1) on the failure paths, none when it falls off the end. -/
def mainRun (argv : List String) (o : Oracle) : List Ev × Option Int :=
  if argv.length = 2 ∨ argv.length = 3 then
    match get_json o.page o.parse with
    | none => ([Ev.print jsonFailMsg], some (-1))
    | some jd =>
      if pyTruthy jd then
        match get_course jd with
        | none => ([Ev.print parseFailMsg], some (-1))
        | some course =>
          if course.isEmpty then ([Ev.print parseFailMsg], some (-1))
          else
            match get_token o.loginResp with
            | (evs, none) =>
              ([Ev.promptUsername, Ev.promptPassword] ++ evs
                ++ [Ev.print loginFailMsg], some (-1))
            | (evs, some tokv) =>
              ([Ev.promptUsername, Ev.promptPassword] ++ evs
                ++ downloader course argv tokv o.resolve
                ++ [Ev.print completeMsg], none)
      else ([Ev.print jsonFailMsg], some (-1))
  else ([Ev.print usageMsg], some (-1))

/-- Process exit status of one run of the script.  Line 253 of the source
calls main(sys.argv) without passing the return value to sys.exit, so the
interpreter discards whatever main returns and the process terminates
normally: the exit status is 0 on every run, whichever path main takes. -/
def scriptExit (argv : List String) (o : Oracle) : Nat :=
  let _r := mainRun argv o
  0

/-- One content item of a chapter in canonical payload shape: its typename
tag, its title and its identifier value. -/
structure VidItem where
  typename : String
  title : String
  id : JVal

/-- The JSON object for one content item in canonical payload shape. -/
def mkItem (it : VidItem) : JVal :=
  .jobj [("__typename", .jstr it.typename), ("title", .jstr it.title), ("id", it.id)]

/-- The JSON object for one chapter in canonical payload shape. -/
def mkChapterJ (t : String) (items : List VidItem) : JVal :=
  .jobj [("title", .jstr t), ("contents", .jarr (items.map mkItem))]

/-- A canonical well-formed course payload: the fixed path props, pageProps,
course, chapters holding the given chapters in document order. -/
def mkPayload (chs : List (String × List VidItem)) : JVal :=
  .jobj [("props", .jobj [("pageProps", .jobj [("course", .jobj
    [("chapters", .jarr (chs.map (fun p => mkChapterJ p.1 p.2)))])])])]

/-- Written from the WORDS OF THE SPEC, not from the source, for the
refinement comparison: for each chapter in document order the sanitized title
is the key, and the value keeps, in document order, exactly the content items
whose type tag equals Video, each as sanitized title mapped to identifier. -/
def specVids (items : List VidItem) : Chapter :=
  (items.filter (fun it => it.typename == "Video")).map
    (fun it => (sanitize_filename it.title, it.id))

/-- Written from the WORDS OF THE SPEC, chapter level of specVids. -/
def specCourse (chs : List (String × List VidItem)) : Course :=
  chs.map (fun p => (sanitize_filename p.1, specVids p.2))

/-- Accumulated effect of the inner loop of get_course on canonical items:
one Python-dict insertion per Video item, in document order. -/
def dFold (acc : Chapter) (items : List VidItem) : Chapter :=
  items.foldl
    (fun a it =>
      if it.typename = "Video" then dinsert (sanitize_filename it.title) it.id a else a)
    acc

/-- Accumulated effect of the outer loop of get_course on canonical chapters:
one Python-dict insertion per chapter, in document order, each carrying the
inner fold of its items. -/
def cFold (acc : Course) (chs : List (String × List VidItem)) : Course :=
  chs.foldl (fun a p => dinsert (sanitize_filename p.1) (dFold [] p.2) a) acc

/-- Oracle with every external interaction failing; main never gets past its
first checks on it. -/
def nullOracle : Oracle := ⟨none, fun _ => none, none, fun _ => none⟩

/-- A login response whose nested login object carries a truthy token. -/
def loginOkResp : JVal := .jobj [("data", .jobj [("login", .jobj [("token", .jstr "T")])])]

/-- A login response that is otherwise well shaped but whose login object has
no token field at all. -/
def noTokenResp : JVal :=
  .jobj [("data", .jobj [("login", .jobj [("user", .jstr "u"), ("errors", .jnull)])])]

/-- Oracle for a run where the page fetch and the embedded JSON extraction
succeed and deliver the given payload, the login POST returns the given
decoded body, and every video resolution succeeds with a fixed token. -/
def oracleFor (payload : JVal) (loginResp : Option JVal) : Oracle :=
  ⟨some [⟨some "application/json", ["payload"]⟩],
   fun s => if s = "payload" then some payload else none,
   loginResp,
   fun _ => some "tok"⟩

/-- Oracle of the C5 witness: a one-chapter course of three videos whose
middle video fails to resolve (a network failure such as an HTTP 503 on its
authorization POST) while the other two resolve. -/
def c5Oracle : Oracle :=
  ⟨some [⟨some "application/json", ["payload"]⟩],
   fun s => if s = "payload" then
       some (mkPayload [("Ch", [⟨"Video", "v one", .jstr "1"⟩, ⟨"Video", "v two", .jstr "2"⟩,
         ⟨"Video", "v three", .jstr "3"⟩])])
     else none,
   some loginOkResp,
   fun i => match i with
     | .jstr s => if s = "2" then none else some "tok"
     | _ => none⟩

lemma sanitizeChar_idem (c : Char) : sanitizeChar (sanitizeChar c) = sanitizeChar c := by
  unfold sanitizeChar
  by_cases h : (pyIsAlnum c || c == ' ' || c == '.' || c == '_') = true
  · simp [h]
  · simp [h]

lemma sanitizeChar_allowed (c : Char) :
    pyIsAlnum (sanitizeChar c) || sanitizeChar c == ' ' || sanitizeChar c == '.'
      || sanitizeChar c == '_' := by
  unfold sanitizeChar
  by_cases h : (pyIsAlnum c || c == ' ' || c == '.' || c == '_') = true
  · simp only [h, if_true]
  · simp [h]

lemma sanitize_filename_data (s : String) :
    (sanitize_filename s).data = s.data.map sanitizeChar := rfl

lemma sanitize_filename_idem (s : String) :
    sanitize_filename (sanitize_filename s) = sanitize_filename s := by
  unfold sanitize_filename
  simp only [List.map_map]
  exact congrArg String.mk (List.map_congr_left (fun c _ => sanitizeChar_idem c))

lemma dinsert_of_not_mem {α : Type} (k : String) (v : α) (d : List (String × α))
    (h : k ∉ d.map Prod.fst) : dinsert k v d = d ++ [(k, v)] := by
  unfold dinsert
  have hany : d.any (fun p => p.1 == k) = false := by
    rw [List.any_eq_false]
    intro p hp
    simp only [beq_iff_eq]
    intro hk
    exact h (List.mem_map.mpr ⟨p, hp, hk⟩)
  simp [hany]

lemma mem_dinsert {α : Type} {q : String × α} {k : String} {v : α} {d : List (String × α)}
    (h : q ∈ dinsert k v d) : q = (k, v) ∨ q ∈ d := by
  unfold dinsert at h
  by_cases hany : d.any (fun p => p.1 == k) = true
  · simp only [hany, if_true] at h
    rcases List.mem_map.mp h with ⟨p, hp, hq⟩
    by_cases hk : p.1 == k
    · simp [hk] at hq
      exact Or.inl hq.symm
    · simp [hk] at hq
      exact Or.inr (hq ▸ hp)
  · simp only [Bool.not_eq_true] at hany
    simp only [hany, Bool.false_eq_true, if_false] at h
    rcases List.mem_append.mp h with h1 | h1
    · exact Or.inr h1
    · simp at h1
      exact Or.inl h1

lemma procVideo_mkItem (acc : Chapter) (it : VidItem) :
    procVideo acc (mkItem it) =
      some (if it.typename = "Video" then dinsert (sanitize_filename it.title) it.id acc
        else acc) := by
  unfold procVideo mkItem
  simp only [List.lookup]
  norm_num
  by_cases h : it.typename = "Video" <;> simp [h]

lemma procVideos_map_mkItem (items : List VidItem) (acc : Chapter) :
    procVideos acc (items.map mkItem) = some (dFold acc items) := by
  induction items generalizing acc with
  | nil => rfl
  | cons it its ih =>
    simp only [List.map_cons, procVideos, procVideo_mkItem, dFold, List.foldl_cons]
    exact ih _

lemma dFold_eq_append (items : List VidItem) (acc : Chapter)
    (h1 : ((specVids items).map Prod.fst).Nodup)
    (h2 : ∀ k ∈ (specVids items).map Prod.fst, k ∉ acc.map Prod.fst) :
    dFold acc items = acc ++ specVids items := by
  induction items generalizing acc with
  | nil => simp [dFold, specVids]
  | cons it its ih =>
    by_cases hv : it.typename = "Video"
    · have hspec : specVids (it :: its)
          = (sanitize_filename it.title, it.id) :: specVids its := by
        simp [specVids, hv]
      rw [hspec] at h1 h2
      simp only [List.map_cons, List.nodup_cons] at h1
      have hknot : sanitize_filename it.title ∉ acc.map Prod.fst := by
        apply h2
        simp
      have step : dFold acc (it :: its) = dFold (acc ++ [(sanitize_filename it.title, it.id)]) its := by
        simp [dFold, hv, dinsert_of_not_mem _ _ _ hknot]
      rw [step, ih _ h1.2]
      · simp [hspec]
      · intro k hk
        simp only [List.map_append, List.mem_append]
        push_neg
        constructor
        · exact h2 k (by simp [hk])
        · simp only [List.map_cons, List.map_nil, List.mem_singleton]
          intro hkk
          exact h1.1 (hkk ▸ hk)
    · have hspec : specVids (it :: its) = specVids its := by
        simp [specVids, hv]
      rw [hspec] at h1 h2
      have step : dFold acc (it :: its) = dFold acc its := by
        simp [dFold, hv]
      rw [step, ih _ h1 h2, hspec]

lemma procChapter_mkChapterJ (acc : Course) (t : String) (items : List VidItem) :
    procChapter acc (mkChapterJ t items) =
      some (dinsert (sanitize_filename t) (dFold [] items) acc) := by
  unfold procChapter mkChapterJ
  simp only [List.lookup]
  norm_num
  simp [pyIter, procVideos_map_mkItem]

lemma procChapters_map_mkChapterJ (chs : List (String × List VidItem)) (acc : Course) :
    procChapters acc (chs.map (fun p => mkChapterJ p.1 p.2)) = some (cFold acc chs) := by
  induction chs generalizing acc with
  | nil => rfl
  | cons c cs ih =>
    simp only [List.map_cons, procChapters, procChapter_mkChapterJ, cFold, List.foldl_cons]
    exact ih _

lemma get_course_mkPayload (chs : List (String × List VidItem)) :
    get_course (mkPayload chs) = some (cFold [] chs) := by
  unfold get_course mkPayload
  simp only [jget, List.lookup]
  norm_num
  simp [pyIter, procChapters_map_mkChapterJ]

lemma cFold_eq_append (chs : List (String × List VidItem)) (acc : Course)
    (h1 : ((specCourse chs).map Prod.fst).Nodup)
    (h2 : ∀ k ∈ (specCourse chs).map Prod.fst, k ∉ acc.map Prod.fst)
    (h3 : ∀ p ∈ chs, ((specVids p.2).map Prod.fst).Nodup) :
    cFold acc chs = acc ++ specCourse chs := by
  induction chs generalizing acc with
  | nil => simp [cFold, specCourse]
  | cons c cs ih =>
    have hspec : specCourse (c :: cs)
        = (sanitize_filename c.1, specVids c.2) :: specCourse cs := by
      simp [specCourse]
    rw [hspec] at h1 h2
    simp only [List.map_cons, List.nodup_cons] at h1
    have hknot : sanitize_filename c.1 ∉ acc.map Prod.fst := by
      apply h2
      simp
    have hinner : dFold [] c.2 = specVids c.2 := by
      have := dFold_eq_append c.2 [] (h3 c (by simp)) (by simp)
      simpa using this
    have step : cFold acc (c :: cs)
        = cFold (acc ++ [(sanitize_filename c.1, specVids c.2)]) cs := by
      simp [cFold, dinsert_of_not_mem _ _ _ hknot, hinner]
    rw [step, ih _ h1.2]
    · simp [hspec]
    · intro k hk
      simp only [List.map_append, List.mem_append]
      push_neg
      constructor
      · exact h2 k (by simp [hk])
      · simp only [List.map_cons, List.map_nil, List.mem_singleton]
        intro hkk
        exact h1.1 (hkk ▸ hk)
    · intro p hp
      exact h3 p (by simp [hp])

lemma pyIndex_get (l : List String) (h : l.Nodup) (i : Nat) (hi : i < l.length) :
    pyIndex l (l.get ⟨i, hi⟩) = i := by
  induction l generalizing i with
  | nil => simp at hi
  | cons x xs ih =>
    rcases i with _ | i
    · simp [pyIndex]
    · have hi2 : i < xs.length := by simpa using hi
      have hmem : xs.get ⟨i, hi2⟩ ∈ xs := List.get_mem xs i hi2
      have hx : x ≠ xs.get ⟨i, hi2⟩ := by
        intro he
        exact (List.nodup_cons.mp h).1 (he ▸ hmem)
      have hrec := ih (List.nodup_cons.mp h).2 i hi2
      simp only [List.get_eq_getElem] at hrec hx
      simp [pyIndex, List.get_cons_succ, hx, hrec]

lemma procVideo_san (acc acc2 : Chapter) (v : JVal)
    (h : procVideo acc v = some acc2)
    (hs : ∀ q ∈ acc, sanitize_filename q.1 = q.1) :
    ∀ q ∈ acc2, sanitize_filename q.1 = q.1 := by
  unfold procVideo at h
  split at h
  next fs =>
    split at h
    next tn htn =>
      split at h
      next tns =>
        split at h
        next hvid =>
          split at h
          next t i ht hi =>
            simp only [Option.some.injEq] at h
            subst h
            intro q hq
            rcases mem_dinsert hq with hq1 | hq1
            · subst hq1
              exact sanitize_filename_idem t
            · exact hs q hq1
          next => exact absurd h (by simp)
        next =>
          simp only [Option.some.injEq] at h
          subst h
          exact hs
      next =>
        simp only [Option.some.injEq] at h
        subst h
        exact hs
    next => exact absurd h (by simp)
  next => exact absurd h (by simp)

lemma procVideos_san (vids : List JVal) (acc acc2 : Chapter)
    (h : procVideos acc vids = some acc2)
    (hs : ∀ q ∈ acc, sanitize_filename q.1 = q.1) :
    ∀ q ∈ acc2, sanitize_filename q.1 = q.1 := by
  induction vids generalizing acc with
  | nil =>
    simp only [procVideos, Option.some.injEq] at h
    subst h
    exact hs
  | cons v vs ih =>
    simp only [procVideos] at h
    split at h
    next => exact absurd h (by simp)
    next mid hmid => exact ih mid h (procVideo_san acc mid v hmid hs)

lemma procChapter_san (acc acc2 : Course) (chv : JVal)
    (h : procChapter acc chv = some acc2)
    (hs : ∀ p ∈ acc, sanitize_filename p.1 = p.1 ∧ ∀ q ∈ p.2, sanitize_filename q.1 = q.1) :
    ∀ p ∈ acc2, sanitize_filename p.1 = p.1 ∧ ∀ q ∈ p.2, sanitize_filename q.1 = q.1 := by
  unfold procChapter at h
  split at h
  next fs =>
    split at h
    next t contents ht hc =>
      split at h
      next vids hvids =>
        split at h
        next inner hinner =>
          simp only [Option.some.injEq] at h
          subst h
          intro p hp
          rcases mem_dinsert hp with hp1 | hp1
          · subst hp1
            exact ⟨sanitize_filename_idem t, procVideos_san vids [] inner hinner (by simp)⟩
          · exact hs p hp1
        next => exact absurd h (by simp)
      next => exact absurd h (by simp)
    next => exact absurd h (by simp)
  next => exact absurd h (by simp)

lemma procChapters_san (chs : List JVal) (acc acc2 : Course)
    (h : procChapters acc chs = some acc2)
    (hs : ∀ p ∈ acc, sanitize_filename p.1 = p.1 ∧ ∀ q ∈ p.2, sanitize_filename q.1 = q.1) :
    ∀ p ∈ acc2, sanitize_filename p.1 = p.1 ∧ ∀ q ∈ p.2, sanitize_filename q.1 = q.1 := by
  induction chs generalizing acc with
  | nil =>
    simp only [procChapters, Option.some.injEq] at h
    subst h
    exact hs
  | cons c cs ih =>
    simp only [procChapters] at h
    split at h
    next => exact absurd h (by simp)
    next mid hmid => exact ih mid h (procChapter_san acc mid c hmid hs)

lemma get_course_san (j : JVal) (course : Course) (h : get_course j = some course) :
    ∀ p ∈ course, sanitize_filename p.1 = p.1 ∧ ∀ q ∈ p.2, sanitize_filename q.1 = q.1 := by
  unfold get_course at h
  split at h
  next => exact absurd h (by simp)
  next chs hchs =>
    split at h
    next => exact absurd h (by simp)
    next l hl => exact procChapters_san l [] course h (by simp)

lemma pyIndex_getElem (l : List String) (h : l.Nodup) (i : Nat) (hi : i < l.length) :
    pyIndex l l[i] = i := by
  have := pyIndex_get l h i hi
  simpa [List.get_eq_getElem] using this

lemma ytdl_mem_downloader (course : Course) (args : List String) (tokv : JVal)
    (resolve : JVal → Option String) (ch : String) (vids : Chapter)
    (hc : (ch, vids) ∈ course) (v : String) (i : JVal) (hv : (v, i) ∈ vids)
    (tok : String) (hres : resolve i = some tok) :
    ∃ out, Ev.ytdl (urlPre ++ tok ++ urlSuf) out ∈ downloader course args tokv resolve := by
  have hvid : ∃ out, Ev.ytdl (urlPre ++ tok ++ urlSuf) out ∈
      videoEvents
        (joinPath (if args.length = 3 then args.getD 2 "" else "submeta-downloads")
          (toString (pyIndex (course.map Prod.fst) ch + 1) ++ ". " ++ sanitize_filename ch))
        (vids.map Prod.fst) resolve (v, i) := by
    simp only [videoEvents, hres]
    exact ⟨_, List.mem_cons_self _ _⟩
  obtain ⟨out, hout⟩ := hvid
  refine ⟨out, ?_⟩
  simp only [downloader]
  apply List.mem_cons_of_mem
  apply List.mem_flatMap.mpr
  refine ⟨(ch, vids), hc, ?_⟩
  simp only [chapterEvents]
  apply List.mem_cons_of_mem
  apply List.mem_flatMap.mpr
  exact ⟨(v, i), hv, hout⟩

lemma forall2_sanitize (l : List Char) :
    List.Forall₂
      (fun a b => b = if pyIsAlnum a || a == ' ' || a == '.' || a == '_' then a else '_')
      l (l.map sanitizeChar) := by
  induction l with
  | nil => exact List.Forall₂.nil
  | cons c cs ih => exact List.Forall₂.cons rfl ih

/-- C1: on a wrong argument count, main prints the usage line and returns -1,
yet the process exit status is 0, because line 253 calls main without passing
the return value to sys.exit; the claimed non-zero exit status never happens.
This run is the failing input of the claim. -/
theorem wrong_argc_usage_but_exit_zero :
    mainRun ["submeta-dl.py"] nullOracle = ([Ev.print usageMsg], some (-1)) ∧
    scriptExit ["submeta-dl.py"] nullOracle = 0 :=
  ⟨rfl, rfl⟩

/-- C3: counterexample to the claim as stated.  The character of code point
233 (a Latin-1 letter) lies outside the class of A-Z, a-z, 0-9, space, dot
and underscore that the claim names, yet Python str.isalnum counts it
alphanumeric, so sanitize_filename keeps it instead of replacing it with an
underscore. -/
theorem sanitize_unicode_counterexample :
    sanitize_filename (String.mk [Char.ofNat 233]) = String.mk [Char.ofNat 233] ∧
    claimAllowedChar (Char.ofNat 233) = false ∧
    String.mk [Char.ofNat 233] ≠ "_" :=
  ⟨by decide, by decide, by decide⟩

/-- C3 (amended): sanitize_filename keeps each character that Python counts
alphanumeric or that is a space, dot or underscore, replaces every other
character with an underscore, preserves the length, and therefore produces
only characters of that (Python-alphanumeric) class. -/
theorem sanitize_filename_pointwise (s : String) :
    (sanitize_filename s).length = s.length ∧
    List.Forall₂
      (fun a b => b = if pyIsAlnum a || a == ' ' || a == '.' || a == '_' then a else '_')
      s.data (sanitize_filename s).data ∧
    ∀ c ∈ (sanitize_filename s).data,
      (pyIsAlnum c || c == ' ' || c == '.' || c == '_') = true := by
  refine ⟨?_, ?_, ?_⟩
  · show (s.data.map sanitizeChar).length = s.data.length
    exact List.length_map _ _
  · exact forall2_sanitize s.data
  · intro c hc
    rcases List.mem_map.mp hc with ⟨a, _, ha⟩
    exact ha ▸ sanitizeChar_allowed a

/-- C3 (amended): witness on a concrete string with a disallowed character. -/
theorem sanitize_filename_pointwise_witness :
    (sanitize_filename "a:b").length = ("a:b" : String).length ∧
    List.Forall₂
      (fun a b => b = if pyIsAlnum a || a == ' ' || a == '.' || a == '_' then a else '_')
      ("a:b" : String).data (sanitize_filename "a:b").data ∧
    ∀ c ∈ (sanitize_filename "a:b").data,
      (pyIsAlnum c || c == ' ' || c == '.' || c == '_') = true :=
  sanitize_filename_pointwise "a:b"

/-- C9: sanitize_filename is idempotent, and every chapter key and every
video key of a parsed course is a sanitize_filename image, hence unchanged by
the re-sanitization that the download loop performs on it. -/
theorem sanitize_filename_idempotent :
    (∀ s, sanitize_filename (sanitize_filename s) = sanitize_filename s) ∧
    ∀ j course, get_course j = some course →
      ∀ p ∈ course, sanitize_filename p.1 = p.1 ∧ ∀ q ∈ p.2, sanitize_filename q.1 = q.1 :=
  ⟨sanitize_filename_idem, fun j course h => get_course_san j course h⟩

/-- C9: witness, instantiating the second part on a concrete parsed course. -/
theorem sanitize_filename_idempotent_witness :
    sanitize_filename (sanitize_filename "a/b") = sanitize_filename "a/b" ∧
    ∀ p ∈ [("A b", [("x_y", JVal.jstr "1")])],
      sanitize_filename p.1 = p.1 ∧ ∀ q ∈ p.2, sanitize_filename q.1 = q.1 :=
  ⟨sanitize_filename_idempotent.1 "a/b",
   sanitize_filename_idempotent.2
     (mkPayload [("A b", [⟨"Video", "x:y", .jstr "1"⟩])]) _ rfl⟩

/-- C2: a payload with an empty chapter list parses successfully to the empty
course, but main then aborts with the parse-failure message and -1, because
the check if not course on line 237 is also true of an empty dict; the claim
(and the spec invariant it quotes) says such a course is valid and the run
completes.  A chapter with zero videos, by contrast, does complete normally
with no download, as the remaining conjuncts show on a one-chapter payload
with no videos. -/
theorem empty_course_treated_as_parse_failure :
    get_course (mkPayload []) = some [] ∧
    mainRun ["submeta-dl.py", "url"] (oracleFor (mkPayload []) (some loginOkResp))
      = ([Ev.print parseFailMsg], some (-1)) ∧
    (mainRun ["submeta-dl.py", "url"]
        (oracleFor (mkPayload [("A", [])]) (some loginOkResp))).2 = none ∧
    (mainRun ["submeta-dl.py", "url"]
        (oracleFor (mkPayload [("A", [])]) (some loginOkResp))).1.getLast?
      = some (Ev.print completeMsg) ∧
    ∀ u t, Ev.ytdl u t ∉
      (mainRun ["submeta-dl.py", "url"]
        (oracleFor (mkPayload [("A", [])]) (some loginOkResp))).1 := by
  refine ⟨rfl, rfl, rfl, rfl, ?_⟩
  intro u t
  have htr : (mainRun ["submeta-dl.py", "url"]
      (oracleFor (mkPayload [("A", [])]) (some loginOkResp))).1
      = [Ev.promptUsername, Ev.promptPassword, Ev.logInfo "Login successful!",
         Ev.print "Login successful! Token obtained", Ev.mkdir "submeta-downloads",
         Ev.mkdir "submeta-downloads/1. A", Ev.print completeMsg] := rfl
  rw [htr]
  simp

/-- C4: a login response without a token field makes get_token report failure
(none) without raising, and main then prints the login-failure message and
returns -1 with no download attempted; but the process exit status is still 0
because line 253 discards the return value of main, against the non-zero exit
status the claim requires. -/
theorem missing_token_no_download_but_exit_zero :
    (get_token (some noTokenResp)).2 = none ∧
    mainRun ["submeta-dl.py", "url"]
        (oracleFor (mkPayload [("A", [⟨"Video", "x", .jstr "1"⟩])]) (some noTokenResp))
      = ([Ev.promptUsername, Ev.promptPassword, Ev.logError "Login failed",
          Ev.print loginFailMsg], some (-1)) ∧
    (∀ u t, Ev.ytdl u t ∉
      (mainRun ["submeta-dl.py", "url"]
        (oracleFor (mkPayload [("A", [⟨"Video", "x", .jstr "1"⟩])]) (some noTokenResp))).1) ∧
    scriptExit ["submeta-dl.py", "url"]
        (oracleFor (mkPayload [("A", [⟨"Video", "x", .jstr "1"⟩])]) (some noTokenResp)) = 0 := by
  refine ⟨rfl, rfl, ?_, rfl⟩
  intro u t
  have htr : (mainRun ["submeta-dl.py", "url"]
      (oracleFor (mkPayload [("A", [⟨"Video", "x", .jstr "1"⟩])]) (some noTokenResp))).1
      = [Ev.promptUsername, Ev.promptPassword, Ev.logError "Login failed",
         Ev.print loginFailMsg] := rfl
  rw [htr]
  simp

/-- C6: counterexample to the claim as stated.  A well-formed payload with two
chapters, of three videos and one video, whose titles sanitize to the same
string, parses to a single key holding only the last chapter, not to the two
keys of lengths three and one the claim requires for every such payload. -/
theorem get_course_two_chapters_collapse_counterexample :
    get_course (mkPayload
      [("A", [⟨"Video", "x", .jstr "1"⟩, ⟨"Video", "y", .jstr "2"⟩, ⟨"Video", "z", .jstr "3"⟩]),
       ("A", [⟨"Video", "w", .jstr "4"⟩])])
      = some [("A", [("w", JVal.jstr "4")])] ∧
    ([("A", [("w", JVal.jstr "4")])] : Course).length = 1 :=
  ⟨rfl, rfl⟩

/-- C6 (amended): for every canonical well-formed payload whose sanitized
chapter titles are pairwise distinct and whose Video items have pairwise
distinct sanitized titles within each chapter, get_course returns exactly the
course that the spec words describe: chapter keys in document order, each
holding exactly the items tagged Video, in document order, as sanitized title
mapped to identifier. -/
theorem get_course_matches_spec (chs : List (String × List VidItem))
    (h1 : ((specCourse chs).map Prod.fst).Nodup)
    (h2 : ∀ p ∈ chs, ((specVids p.2).map Prod.fst).Nodup) :
    get_course (mkPayload chs) = some (specCourse chs) := by
  rw [get_course_mkPayload]
  have := cFold_eq_append chs [] h1 (by simp) h2
  simpa using this

/-- C6: witness, the 2-chapter payload of the claim with 3 and 1 videos and
distinct titles, yielding 2 keys whose values have lengths 3 and 1. -/
theorem get_course_matches_spec_witness :
    get_course (mkPayload
      [("Ch one", [⟨"Video", "v one", .jstr "1"⟩, ⟨"Video", "v two", .jstr "2"⟩,
                   ⟨"Video", "v three", .jstr "3"⟩]),
       ("Ch two", [⟨"Video", "w one", .jstr "4"⟩])])
      = some (specCourse
        [("Ch one", [⟨"Video", "v one", .jstr "1"⟩, ⟨"Video", "v two", .jstr "2"⟩,
                     ⟨"Video", "v three", .jstr "3"⟩]),
         ("Ch two", [⟨"Video", "w one", .jstr "4"⟩])]) ∧
    (specCourse
        [("Ch one", [⟨"Video", "v one", .jstr "1"⟩, ⟨"Video", "v two", .jstr "2"⟩,
                     ⟨"Video", "v three", .jstr "3"⟩]),
         ("Ch two", [⟨"Video", "w one", .jstr "4"⟩])]).map
      (fun p => (p.1, p.2.length)) = [("Ch one", 3), ("Ch two", 1)] :=
  ⟨get_course_matches_spec _ (by decide) (by decide), rfl⟩

/-- C10: when two chapters have titles with the same sanitized form, the
parsed course holds a single key whose value is the last chapter, the earlier
one being overwritten; and when two Video items of one chapter have titles
with the same sanitized form, the chapter holds a single key mapped to the
identifier of the last such item. -/
theorem duplicate_sanitized_titles_overwrite
    (t1 t2 : String) (vs1 vs2 : List VidItem)
    (hteq : sanitize_filename t1 = sanitize_filename t2)
    (hnd : ((specVids vs2).map Prod.fst).Nodup)
    (t u1 u2 : String) (i1 i2 : JVal)
    (hueq : sanitize_filename u1 = sanitize_filename u2) :
    get_course (mkPayload [(t1, vs1), (t2, vs2)])
      = some [(sanitize_filename t2, specVids vs2)] ∧
    get_course (mkPayload [(t, [⟨"Video", u1, i1⟩, ⟨"Video", u2, i2⟩])])
      = some [(sanitize_filename t, [(sanitize_filename u2, i2)])] := by
  constructor
  · rw [get_course_mkPayload]
    simp only [cFold, List.foldl_cons, List.foldl_nil]
    have hbase : dinsert (sanitize_filename t1) (dFold [] vs1) []
        = [(sanitize_filename t1, dFold [] vs1)] := by
      simp [dinsert]
    rw [hbase, hteq]
    have hrep : dinsert (sanitize_filename t2) (dFold [] vs2)
        [(sanitize_filename t2, dFold [] vs1)] = [(sanitize_filename t2, dFold [] vs2)] := by
      simp [dinsert]
    rw [hrep]
    have hspec : dFold [] vs2 = specVids vs2 := by
      simpa using dFold_eq_append vs2 [] hnd (by simp)
    rw [hspec]
  · rw [get_course_mkPayload]
    simp only [cFold, List.foldl_cons, List.foldl_nil]
    have hin : dFold [] [⟨"Video", u1, i1⟩, ⟨"Video", u2, i2⟩]
        = [(sanitize_filename u2, i2)] := by
      simp only [dFold, List.foldl_cons, List.foldl_nil]
      norm_num
      have hbase : dinsert (sanitize_filename u1) i1 [] = [(sanitize_filename u1, i1)] := by
        simp [dinsert]
      rw [hbase, hueq]
      simp [dinsert]
    rw [hin]
    simp [dinsert]

/-- C10: witness with two chapter titles sanitizing to the same string and
two video titles sanitizing to the same string. -/
theorem duplicate_sanitized_titles_overwrite_witness :
    get_course (mkPayload
      [("A!", [⟨"Video", "x", .jstr "1"⟩, ⟨"Video", "y", .jstr "2"⟩, ⟨"Video", "z", .jstr "3"⟩]),
       ("A?", [⟨"Video", "w", .jstr "4"⟩])])
      = some [(sanitize_filename "A?", specVids [⟨"Video", "w", .jstr "4"⟩])] ∧
    get_course (mkPayload [("C", [⟨"Video", "v:1", .jstr "5"⟩, ⟨"Video", "v_1", .jstr "6"⟩])])
      = some [(sanitize_filename "C", [(sanitize_filename "v_1", JVal.jstr "6")])] :=
  duplicate_sanitized_titles_overwrite "A!" "A?" _ _ (by decide) (by decide)
    "C" "v:1" "v_1" _ _ (by decide)

/-- C7: with no path argument the destination root is submeta-downloads; the
downloader creates, for the chapter at 1-based position i of the course, the
subdirectory whose name is i, a dot, a space and the sanitized chapter title,
and derives for the video at 1-based position j of its chapter the filename
stem j, a dot, a space and the sanitized video title, which (with the
extension template) is the output path bound to the download invocation. -/
theorem downloader_layout (course : Course) (args : List String) (tokv : JVal)
    (resolve : JVal → Option String)
    (hnd : (course.map Prod.fst).Nodup)
    (hlen : args.length = 2) :
    (∀ i, (hi : i < course.length) →
      Ev.mkdir (joinPath "submeta-downloads"
          (toString (i + 1) ++ ". " ++ sanitize_filename (course.get ⟨i, hi⟩).1))
        ∈ downloader course args tokv resolve) ∧
    (∀ i, (hi : i < course.length) → ∀ j, (hj : j < (course.get ⟨i, hi⟩).2.length) →
      ((course.get ⟨i, hi⟩).2.map Prod.fst).Nodup →
      ∀ tok, resolve ((course.get ⟨i, hi⟩).2.get ⟨j, hj⟩).2 = some tok →
      Ev.ytdl (urlPre ++ tok ++ urlSuf)
        (joinPath (joinPath "submeta-downloads"
            (toString (i + 1) ++ ". " ++ sanitize_filename (course.get ⟨i, hi⟩).1))
          ((toString (j + 1) ++ ". "
              ++ sanitize_filename ((course.get ⟨i, hi⟩).2.get ⟨j, hj⟩).1) ++ ".%(ext)s"))
        ∈ downloader course args tokv resolve) := by
  have hif : (if args.length = 3 then args.getD 2 "" else "submeta-downloads")
      = "submeta-downloads" := by
    rw [hlen]
    simp
  constructor
  · intro i hi
    have hidx : pyIndex (course.map Prod.fst) (course.get ⟨i, hi⟩).1 = i := by
      have hm : (course.map Prod.fst).get ⟨i, by simpa using hi⟩ = (course.get ⟨i, hi⟩).1 := by
        simp [List.get_eq_getElem, List.getElem_map]
      rw [← hm]
      exact pyIndex_get _ hnd i _
    simp only [downloader, hif]
    apply List.mem_cons_of_mem
    apply List.mem_flatMap.mpr
    refine ⟨course.get ⟨i, hi⟩, List.get_mem course i hi, ?_⟩
    simp only [chapterEvents, hidx]
    exact List.mem_cons_self _ _
  · intro i hi j hj hvnd tok hres
    have hidx : pyIndex (course.map Prod.fst) (course.get ⟨i, hi⟩).1 = i := by
      have hm : (course.map Prod.fst).get ⟨i, by simpa using hi⟩ = (course.get ⟨i, hi⟩).1 := by
        simp [List.get_eq_getElem, List.getElem_map]
      rw [← hm]
      exact pyIndex_get _ hnd i _
    have hjdx : pyIndex ((course.get ⟨i, hi⟩).2.map Prod.fst)
        ((course.get ⟨i, hi⟩).2.get ⟨j, hj⟩).1 = j := by
      have hm : ((course.get ⟨i, hi⟩).2.map Prod.fst).get ⟨j, by simpa using hj⟩
          = ((course.get ⟨i, hi⟩).2.get ⟨j, hj⟩).1 := by
        simp [List.get_eq_getElem, List.getElem_map]
      rw [← hm]
      exact pyIndex_get _ hvnd j _
    simp only [downloader, hif]
    apply List.mem_cons_of_mem
    apply List.mem_flatMap.mpr
    refine ⟨course.get ⟨i, hi⟩, List.get_mem course i hi, ?_⟩
    simp only [chapterEvents, hidx]
    apply List.mem_cons_of_mem
    apply List.mem_flatMap.mpr
    refine ⟨(course.get ⟨i, hi⟩).2.get ⟨j, hj⟩, List.get_mem _ j hj, ?_⟩
    simp only [videoEvents, hres, hjdx]
    exact List.mem_cons_self _ _

/-- C7: witness on a one-chapter one-video course. -/
theorem downloader_layout_witness :
    Ev.mkdir (joinPath "submeta-downloads" (toString (0 + 1) ++ ". " ++ sanitize_filename "Ch"))
      ∈ downloader [("Ch", [("Vid", .jstr "7")])] ["submeta-dl.py", "url"] (.jstr "T")
          (fun _ => some "tok") ∧
    Ev.ytdl (urlPre ++ "tok" ++ urlSuf)
      (joinPath (joinPath "submeta-downloads" (toString (0 + 1) ++ ". " ++ sanitize_filename "Ch"))
        ((toString (0 + 1) ++ ". " ++ sanitize_filename "Vid") ++ ".%(ext)s"))
      ∈ downloader [("Ch", [("Vid", .jstr "7")])] ["submeta-dl.py", "url"] (.jstr "T")
          (fun _ => some "tok") := by
  have h := downloader_layout [("Ch", [("Vid", .jstr "7")])] ["submeta-dl.py", "url"]
    (.jstr "T") (fun _ => some "tok") (by decide) rfl
  exact ⟨h.1 0 (by decide), h.2 0 (by decide) 0 (by decide) (by decide) "tok" rfl⟩

/-- C8: when the fetched page holds no element whose type attribute equals
application/json, main prints the retrieval-failure message and returns -1
before the username and password prompts and before any download invocation:
the trace holds neither prompt and no yt-dlp call. -/
theorem no_json_element_aborts_before_prompts (argv : List String) (o : Oracle)
    (pg : List PageElem)
    (hargv : argv.length = 2 ∨ argv.length = 3)
    (hpage : o.page = some pg)
    (hnone : ∀ el ∈ pg, el.typeAttr ≠ some "application/json") :
    mainRun argv o = ([Ev.print jsonFailMsg], some (-1)) ∧
    Ev.promptUsername ∉ (mainRun argv o).1 ∧
    Ev.promptPassword ∉ (mainRun argv o).1 ∧
    ∀ u t, Ev.ytdl u t ∉ (mainRun argv o).1 := by
  have hfind : bs4FindJson pg = none := by
    apply List.find?_eq_none.mpr
    intro el hel
    simp only [beq_iff_eq]
    exact hnone el hel
  have hjson : get_json o.page o.parse = none := by
    rw [hpage]
    simp [get_json, hfind]
  have hmain : mainRun argv o = ([Ev.print jsonFailMsg], some (-1)) := by
    unfold mainRun
    rw [if_pos hargv]
    simp only [hjson]
  refine ⟨hmain, ?_, ?_, ?_⟩
  · rw [hmain]
    simp
  · rw [hmain]
    simp
  · intro u t
    rw [hmain]
    simp

/-- C8: witness on a page whose elements carry other or no type attributes. -/
theorem no_json_element_aborts_before_prompts_witness :
    mainRun ["submeta-dl.py", "url"]
        ⟨some [⟨some "text/css", ["x"]⟩, ⟨none, ["y"]⟩], fun _ => none, none, fun _ => none⟩
      = ([Ev.print jsonFailMsg], some (-1)) ∧
    Ev.promptUsername ∉ (mainRun ["submeta-dl.py", "url"]
        ⟨some [⟨some "text/css", ["x"]⟩, ⟨none, ["y"]⟩], fun _ => none, none, fun _ => none⟩).1 ∧
    Ev.promptPassword ∉ (mainRun ["submeta-dl.py", "url"]
        ⟨some [⟨some "text/css", ["x"]⟩, ⟨none, ["y"]⟩], fun _ => none, none, fun _ => none⟩).1 ∧
    ∀ u t, Ev.ytdl u t ∉ (mainRun ["submeta-dl.py", "url"]
        ⟨some [⟨some "text/css", ["x"]⟩, ⟨none, ["y"]⟩], fun _ => none, none, fun _ => none⟩).1 :=
  no_json_element_aborts_before_prompts ["submeta-dl.py", "url"]
    ⟨some [⟨some "text/css", ["x"]⟩, ⟨none, ["y"]⟩], fun _ => none, none, fun _ => none⟩
    [⟨some "text/css", ["x"]⟩, ⟨none, ["y"]⟩] (Or.inl rfl) rfl (by decide)

/-- C5: on any run that reaches the download loop, the run prints Download
complete! as its last output, main returns no error and the process exits 0,
and every video whose own resolution succeeds is attempted, with the manifest
URL built from its stream token, regardless of resolution or download
failures of any other video in the course: each video sits in its own
try-except, so one failure never stops the loop. -/
theorem per_video_failures_do_not_abort
    (o : Oracle) (argv : List String) (jd : JVal) (course : Course)
    (hargv : argv.length = 2 ∨ argv.length = 3)
    (hjson : get_json o.page o.parse = some jd)
    (htruthy : pyTruthy jd = true)
    (hcourse : get_course jd = some course)
    (hne : course.isEmpty = false)
    (lr : List Ev) (tokv : JVal)
    (htok : get_token o.loginResp = (lr, some tokv)) :
    (mainRun argv o).2 = none ∧
    (mainRun argv o).1.getLast? = some (Ev.print completeMsg) ∧
    scriptExit argv o = 0 ∧
    ∀ ch vids, (ch, vids) ∈ course → ∀ v i, (v, i) ∈ vids →
      ∀ tok, o.resolve i = some tok →
      ∃ out, Ev.ytdl (urlPre ++ tok ++ urlSuf) out ∈ (mainRun argv o).1 := by
  have hmain : mainRun argv o
      = ([Ev.promptUsername, Ev.promptPassword] ++ lr
          ++ downloader course argv tokv o.resolve ++ [Ev.print completeMsg], none) := by
    unfold mainRun
    rw [if_pos hargv]
    simp only [hjson, htruthy, hcourse, hne, htok, if_true, Bool.false_eq_true, if_false]
  refine ⟨by rw [hmain], ?_, rfl, ?_⟩
  · rw [hmain]
    show ([Ev.promptUsername, Ev.promptPassword] ++ lr
        ++ downloader course argv tokv o.resolve ++ [Ev.print completeMsg]).getLast? = _
    exact List.getLast?_concat _
  · intro ch vids hc v i hv tok hres
    obtain ⟨out, hout⟩ :=
      ytdl_mem_downloader course argv tokv o.resolve ch vids hc v i hv tok hres
    refine ⟨out, ?_⟩
    rw [hmain]
    simp only [List.mem_append]
    exact Or.inl (Or.inr hout)

/-- C5: witness, resolution of video 2 of 3 fails, videos 1 and 3 are still
attempted, the run ends with Download complete! and the exit status is 0. -/
theorem per_video_failures_do_not_abort_witness :
    c5Oracle.resolve (JVal.jstr "2") = none ∧
    (mainRun ["submeta-dl.py", "url"] c5Oracle).2 = none ∧
    (mainRun ["submeta-dl.py", "url"] c5Oracle).1.getLast? = some (Ev.print completeMsg) ∧
    scriptExit ["submeta-dl.py", "url"] c5Oracle = 0 ∧
    (∃ out, Ev.ytdl (urlPre ++ "tok" ++ urlSuf) out
      ∈ (mainRun ["submeta-dl.py", "url"] c5Oracle).1) := by
  have h := per_video_failures_do_not_abort c5Oracle ["submeta-dl.py", "url"] _ _
    (Or.inl rfl) rfl rfl rfl rfl _ _ rfl
  refine ⟨rfl, h.1, h.2.1, h.2.2.1, ?_⟩
  exact h.2.2.2 "Ch"
    [("v one", .jstr "1"), ("v two", .jstr "2"), ("v three", .jstr "3")]
    (List.mem_cons_self _ _) "v one" (.jstr "1") (List.mem_cons_self _ _) "tok" rfl

end SubmetaDL
